import Mathlib

/-!
# Verification of the Spanish asylum appointment bot

Shallow embedding of the appointment-checking pipeline from
`asylum_bot_requests.py` (HTTP transport) and `asylum_bot.py` (browser
transport), together with proofs of the specified properties: the retry
policy, the form extractor, the availability classifier, the per-province
pipeline and the per-cycle province loop.

Strings are handled through character lists so that all definitions are
executable and kernel-reducible.  Python `str.lower()` is modelled by
ASCII case folding (`Char.toLower`), `str.strip()` by dropping whitespace
on both ends, and the `in` substring test by a contiguous-sublist check.
-/

/-- Characters of `s` with ASCII case folding applied; models Python
`s.lower()` as used on page text before phrase matching. -/
def lowerChars (s : String) : List Char :=
  s.data.map Char.toLower

/-- `leadsList needle l` is true when `needle` is an initial segment of `l`. -/
def leadsList : List Char → List Char → Bool
  | [], _ => true
  | _ :: _, [] => false
  | a :: as, b :: bs => a = b && leadsList as bs

/-- `containsSeq needle haystack` is true when `needle` occurs contiguously
inside `haystack`; models Python `needle in haystack` on strings. -/
def containsSeq : List Char → List Char → Bool
  | needle, [] => needle.isEmpty
  | needle, c :: rest => leadsList needle (c :: rest) || containsSeq needle rest

/-- Characters of `s` with leading and trailing whitespace removed; models
Python `s.strip()` as used on option labels. -/
def stripChars (s : String) : List Char :=
  ((s.data.dropWhile Char.isWhitespace).reverse.dropWhile Char.isWhitespace).reverse

/-!
## Retry policy (`AsylumAppointmentBotRequests._make_request_with_retry`)

One call of the wrapped network operation either produces an HTTP response
(content, final URL, numeric status) or raises one of the exception kinds
distinguished by the source's `except` clauses: `aiohttp.ClientConnectorError`,
`aiohttp.ServerTimeoutError`, or any other exception.
-/

/-- Outcome of a single request attempt as observed inside the retry loop. -/
inductive AttemptOutcome where
  | response (content : String) (finalUrl : String) (status : Nat)
  | connectionError
  | timeoutError
  | otherError
  deriving DecidableEq

/-- `True` exactly on server-error responses (status `>= 500`). -/
def isServerErrorOutcome : AttemptOutcome → Bool
  | .response _ _ s => decide (500 ≤ s)
  | _ => false

/-- The failure classes the specification calls transient: connection
failure, timeout, and server-error status (`>= 500`). -/
def isTransientOutcome : AttemptOutcome → Bool
  | .response _ _ s => decide (500 ≤ s)
  | .connectionError => true
  | .timeoutError => true
  | .otherError => false

/-- Failures after which the source code keeps looping when attempts remain:
server-error statuses and every raised exception, including the generic
`except Exception` branch. -/
def isRetriedFailure : AttemptOutcome → Bool
  | .response _ _ s => decide (500 ≤ s)
  | .connectionError => true
  | .timeoutError => true
  | .otherError => true

/-- Sleep performed at the start of loop iteration `attempt` (0-based):
none before the first attempt, `min (2 ^ attempt) 6` seconds otherwise,
mirroring `if attempt > 0: delay = min(2 ** attempt, 6)`. -/
def retrySleeps (attempt : Nat) : List Nat :=
  if attempt = 0 then [] else [min (2 ^ attempt) 6]

/-- The body of `_make_request_with_retry`'s `for attempt in range(max_retries)`
loop, starting at iteration `attempt` with `fuel` iterations remaining
(`fuel = maxRetries - attempt` at every call).  Returns the function's return
value, the number of request attempts performed, and the list of sleep delays
performed, in order. -/
def retryAux (outcomes : Nat → AttemptOutcome) (maxRetries : Nat) :
    Nat → Nat → Option (String × String × Nat) × Nat × List Nat
  | _, 0 => (none, 0, [])
  | attempt, fuel + 1 =>
    let sleeps := retrySleeps attempt
    match outcomes attempt with
    | .response c u s =>
      if 500 ≤ s then
        if attempt = maxRetries - 1 then (none, 1, sleeps)
        else
          let r := retryAux outcomes maxRetries (attempt + 1) fuel
          (r.1, r.2.1 + 1, sleeps ++ r.2.2)
      else if 400 ≤ s then (none, 1, sleeps)
      else (some (c, u, s), 1, sleeps)
    | .connectionError =>
      if attempt = maxRetries - 1 then (none, 1, sleeps)
      else
        let r := retryAux outcomes maxRetries (attempt + 1) fuel
        (r.1, r.2.1 + 1, sleeps ++ r.2.2)
    | .timeoutError =>
      if attempt = maxRetries - 1 then (none, 1, sleeps)
      else
        let r := retryAux outcomes maxRetries (attempt + 1) fuel
        (r.1, r.2.1 + 1, sleeps ++ r.2.2)
    | .otherError =>
      if attempt = maxRetries - 1 then (none, 1, sleeps)
      else
        let r := retryAux outcomes maxRetries (attempt + 1) fuel
        (r.1, r.2.1 + 1, sleeps ++ r.2.2)

/-- `_make_request_with_retry(method, url, max_retries)` against an
environment `outcomes` giving the result of each successive attempt.
Returns the function's return value (`none` is Python `None`), the number of
request attempts performed, and the sleeps performed. -/
def makeRequestWithRetry (outcomes : Nat → AttemptOutcome) (maxRetries : Nat) :
    Option (String × String × Nat) × Nat × List Nat :=
  retryAux outcomes maxRetries 0 maxRetries

/-- Sleeps performed over a full run of `m` failed attempts: one delay of
`min (2 ^ k) 6` seconds before each attempt `k + 1` for `k = 1, …, m - 1`
(0-based), and none before the first attempt. -/
def expectedRetryDelays (m : Nat) : List Nat :=
  (List.range' 1 (m - 1)).map (fun k => min (2 ^ k) 6)

/-!
## Form extractor (`check_province_appointments`, steps over the first form)

The source walks `form.find_all(['input', 'select'])` and builds the
`form_data` dictionary: a `select` named `provincia` contributes the value of
the first option whose stripped text equals the requested province; hidden
inputs contribute their `value` attribute (defaulting to the empty string);
submit inputs are skipped; every other named control contributes its `value`
attribute.  Unnamed controls are ignored.
-/

/-- An `<option>` of a select field: its visible text and its `value`
attribute when present (`option.get('value', '')` defaults to `""`). -/
structure OptionTag where
  text : String
  value : Option String
  deriving DecidableEq

/-- One control found by `form.find_all(['input', 'select'])`: its tag name,
`name`, `type` and `value` attributes, and its options when it is a select. -/
structure FormControl where
  tag : String
  name : Option String
  typeAttr : Option String
  value : Option String
  options : List OptionTag
  deriving DecidableEq

/-- The first `<form>` of a fetched document: its `action` attribute and its
input/select controls in document order. -/
structure HtmlForm where
  action : Option String
  controls : List FormControl
  deriving DecidableEq

/-- Python dictionary assignment `form_data[k] = v` on a mapping modelled as
a lookup function. -/
def dictInsert (fd : String → Option String) (k v : String) :
    String → Option String :=
  fun q => if q = k then some v else fd q

/-- Processing of one control of the form, mirroring the body of the
`for input_tag in form.find_all(['input', 'select'])` loop. -/
def processControl (province : String) (fd : String → Option String)
    (c : FormControl) : String → Option String :=
  match c.name with
  | none => fd
  | some n =>
    if c.tag = "select" ∧ n = "provincia" then
      match c.options.find? (fun o => stripChars o.text == province.data) with
      | some o => dictInsert fd n (o.value.getD "")
      | none => fd
    else if c.typeAttr = some "hidden" then
      dictInsert fd n (c.value.getD "")
    else if c.typeAttr = some "submit" then
      fd
    else
      dictInsert fd n (c.value.getD "")

/-- The `form_data` mapping built from the form's controls. -/
def buildFormData (province : String) (controls : List FormControl) :
    String → Option String :=
  controls.foldl (processControl province) (fun _ => none)

/-- The fixed origin used to absolutise root-relative form actions. -/
def knownOrigin : String := "https://icp.administracionelectronica.gob.es"

/-- `action_url = form.get('action', '')`, prefixed with the known origin
when it starts with `/`. -/
def resolveActionUrl (action : Option String) : String :=
  let a := action.getD ""
  if a.data.head? = some '/' then knownOrigin ++ a else a

/-!
## Availability classification, HTTP transport
(`asylum_bot_requests.check_province_appointments`, service-selection page)
-/

/-- The fixed "no appointments" phrases of the HTTP transport (already
lower-case in the source, including its mojibake spelling of the last one). -/
def noAppointmentIndicatorsReq : List String :=
  ["no hay citas disponibles",
   "no hay citas libres",
   "en este momento no hay citas disponibles",
   "no quedan citas libres",
   "todas las citas est√°n ocupadas"]

/-- The fixed positive phrases of the HTTP transport. -/
def appointmentIndicatorsReq : List String :=
  ["citas disponibles",
   "citas libres",
   "seleccione una fecha",
   "calendario",
   "fecha disponible"]

/-- A fetched and parsed page, as the HTTP flow observes it: its first form
(if any), its visible text (`soup.get_text()`), the final URL after
redirects, and the presence of the calendar tables and date-named fields the
detail extraction looks for. -/
structure FetchedPage where
  form : Option HtmlForm
  text : String
  finalUrl : String
  hasCalendarTable : Bool
  hasDateField : Bool
  deriving DecidableEq

/-- The appointment-result record the HTTP flow returns on detection. -/
structure AppointmentInfoReq where
  province : String
  pageUrl : String
  foundVia : String
  statusTag : String
  calendarFound : Bool
  dateSelectionAvailable : Bool
  deriving DecidableEq

/-- Classification of the service-selection page: the negative-phrase tier is
evaluated first and returns `none`; otherwise a positive phrase yields the
result record; otherwise `none`. -/
def classifyServicePage (province : String) (page : FetchedPage) :
    Option AppointmentInfoReq :=
  let pageText := lowerChars page.text
  if noAppointmentIndicatorsReq.any (fun ind => containsSeq ind.data pageText) then
    none
  else if appointmentIndicatorsReq.any (fun ind => containsSeq ind.data pageText) then
    some { province := province
           pageUrl := page.finalUrl
           foundVia := "Async HTTP requests with retry logic"
           statusTag := "appointments_detected"
           calendarFound := page.hasCalendarTable
           dateSelectionAvailable := page.hasDateField }
  else
    none

/-- Environment of one HTTP province check: the outcome of the initial GET
and of the province-selection POST, each already run through the retry
wrapper (`none` = the wrapper returned `None`). -/
structure ReqEnv where
  initialPage : Option FetchedPage
  postPage : Option FetchedPage
  deriving DecidableEq

/-- `AsylumAppointmentBotRequests.check_province_appointments`: returns the
function's result together with the number of retry-wrapped network calls
performed (the initial GET and, when reached, the province POST). -/
def checkProvinceAppointmentsReq (env : ReqEnv) (province : String) :
    Option AppointmentInfoReq × Nat :=
  match env.initialPage with
  | none => (none, 1)
  | some page =>
    match page.form with
    | none => (none, 1)
    | some form =>
      let formData := buildFormData province form.controls
      if formData "provincia" = none then (none, 1)
      else
        match env.postPage with
        | none => (none, 2)
        | some page2 =>
          if containsSeq "citar?p=4&locale=es".data page2.finalUrl.data then
            (classifyServicePage province page2, 2)
          else (none, 2)

/-!
## Availability classification, browser transport (`asylum_bot.py`)
-/

/-- The fixed "no appointments" phrases of the browser transport; both sides
of the comparison are lower-cased by the source. -/
def noAppointmentIndicatorsPw : List String :=
  ["No hay citas disponibles",
   "no hay citas libres",
   "En este momento no hay citas disponibles",
   "No quedan citas libres"]

/-- The final page as the browser transport observes it: its serialized
content, the values of the `input[type=radio][name*=fecha]` elements in
document order (`none` = missing `value` attribute), the presence of each
calendar selector, the office element's text when present, and the elements
the auto-booking sequence needs. -/
structure BrowserPage where
  content : String
  dateRadioValues : List (Option String)
  hasCalendarTable : Bool
  hasCalendarClass : Bool
  hasDateSelect : Bool
  office : Option String
  hasContinueButton : Bool
  contactFormFillable : Bool
  hasSubmitButton : Bool
  deriving DecidableEq

/-- The negative-phrase tier of `check_appointment_availability`. -/
def pageHasNoAppointmentPhrase (page : BrowserPage) : Bool :=
  noAppointmentIndicatorsPw.any
    (fun ind => containsSeq (lowerChars ind) (lowerChars page.content))

/-- The calendar-selector tier: any of `table.calendario`, `.calendar`,
`input[type=radio][name*=fecha]`, `select[name*=fecha]` present. -/
def pageHasCalendarElement (page : BrowserPage) : Bool :=
  page.hasCalendarTable || page.hasCalendarClass ||
    !page.dateRadioValues.isEmpty || page.hasDateSelect

/-- The record built by `extract_appointment_details`. -/
structure AppointmentDetails where
  province : String
  dates : List String
  office : String
  deriving DecidableEq

/-- `extract_appointment_details`: harvest the non-empty values of the
date-radio inputs in document order (`if value:` skips `None` and `""`) and
the office element's text when present. -/
def extractAppointmentDetails (page : BrowserPage) : AppointmentDetails :=
  { province := ""
    dates := page.dateRadioValues.filterMap (fun v? =>
      match v? with
      | some v => if v = "" then none else some v
      | none => none)
    office := page.office.getD "" }

/-- `check_appointment_availability`: the negative-phrase tier is decided
first; otherwise any calendar selector yields availability with extracted
details; otherwise not available. -/
def checkAppointmentAvailability (page : BrowserPage) :
    Bool × Option AppointmentDetails :=
  if pageHasNoAppointmentPhrase page then (false, none)
  else if pageHasCalendarElement page then
    (true, some (extractAppointmentDetails page))
  else (false, none)

/-- `auto_select_appointment`: pick the first date radio, click continue,
fill the contact form, click submit; any missing element or failed fill
returns `false`. -/
def autoSelectAppointment (page : BrowserPage) : Bool :=
  if !page.dateRadioValues.isEmpty then
    if page.hasContinueButton then
      if page.contactFormFillable then
        if page.hasSubmitButton then true
        else false
      else false
    else false
  else false

/-!
## Per-province pipeline, browser transport
(`AsylumAppointmentBot.check_province_appointments`)
-/

/-- The ordered steps of one province check, as executed by the source. -/
inductive PipelineStep where
  | provinceSelection
  | serviceSelection
  | entryForm
  | userData
  | availability
  | booking
  deriving DecidableEq

/-- All six steps in execution order. -/
def allPipelineSteps : List PipelineStep :=
  [.provinceSelection, .serviceSelection, .entryForm, .userData,
   .availability, .booking]

/-- Environment of one browser province check: whether the initial
navigation succeeds, whether each boolean step helper succeeds, and the
final page reached after the user-data submission. -/
structure PwEnv where
  gotoOk : Bool
  selectProvinceOk : Bool
  selectServiceOk : Bool
  proceedEntryOk : Bool
  fillUserDataOk : Bool
  finalPage : BrowserPage
  deriving DecidableEq

/-- The appointment result returned on availability: the extracted details
with the province filled in and the auto-booking outcome recorded. -/
structure PwResult where
  province : String
  dates : List String
  office : String
  bookingAttempted : Bool
  deriving DecidableEq

/-- `AsylumAppointmentBot.check_province_appointments`: returns the result
(`none` = Python `None`) together with the list of steps executed, in order.
A raised navigation error is caught by the outer handler and yields `None`
before any step runs; each failing step helper returns `None` at once. -/
def checkProvinceAppointmentsPw (env : PwEnv) (province : String) :
    Option PwResult × List PipelineStep :=
  if !env.gotoOk then (none, [])
  else if !env.selectProvinceOk then (none, [.provinceSelection])
  else if !env.selectServiceOk then (none, [.provinceSelection, .serviceSelection])
  else if !env.proceedEntryOk then
    (none, [.provinceSelection, .serviceSelection, .entryForm])
  else if !env.fillUserDataOk then
    (none, [.provinceSelection, .serviceSelection, .entryForm, .userData])
  else
    match checkAppointmentAvailability env.finalPage with
    | (true, some details) =>
      let booking := autoSelectAppointment env.finalPage
      (some { province := province
              dates := details.dates
              office := details.office
              bookingAttempted := booking }, allPipelineSteps)
    | _ =>
      (none, [.provinceSelection, .serviceSelection, .entryForm, .userData,
              .availability])

/-!
## Check cycle (`run_single_check`, identical loop in both transports)
-/

/-- What one province check does when called from the cycle loop: return a
result, return `None`, or raise (the loop's `except Exception` catches it). -/
inductive ProvinceOutcome where
  | found (info : PwResult)
  | nothing
  | raised (msg : String)

/-- Observable events of one check cycle: a completed check (with whether a
result was recorded and notified), a caught-and-logged per-province error,
and the fixed inter-province pause (`asyncio.sleep(2)`). -/
inductive CycleEvent where
  | checked (province : String) (foundResult : Bool)
  | errorLogged (province : String)
  | pause
  deriving DecidableEq

/-- `run_single_check`'s `for province in self.provinces` loop: produces the
event trace and the accumulated `found_appointments` list.  A raised check is
caught by the per-province handler; the pause runs after every province. -/
def runSingleCheck (outcome : String → ProvinceOutcome) :
    List String → List CycleEvent × List PwResult
  | [] => ([], [])
  | p :: rest =>
    let tail := runSingleCheck outcome rest
    match outcome p with
    | .found info =>
      (.checked p true :: .pause :: tail.1, info :: tail.2)
    | .nothing =>
      (.checked p false :: .pause :: tail.1, tail.2)
    | .raised _ =>
      (.errorLogged p :: .pause :: tail.1, tail.2)

/-- The province a cycle event is about, when it is about one. -/
def cycleEventProvince : CycleEvent → Option String
  | .checked p _ => some p
  | .errorLogged p => some p
  | .pause => none

/-!
## Concrete inputs used by the witnesses
-/

/-- Environment in which every attempt gets a 503 server-error response. -/
def allServerErrorOutcomes : Nat → AttemptOutcome :=
  fun _ => .response "maintenance" "https://sede.example/acOpcDirect" 503

/-- Environment in which the first attempt gets a 403 client-error response
and any later attempt would succeed. -/
def clientErrorOutcomes : Nat → AttemptOutcome
  | 0 => .response "forbidden" "https://sede.example/acOpcDirect" 403
  | _ + 1 => .response "ok" "https://sede.example/acOpcDirect" 200

/-- Environment in which the first attempt raises a generic (non-transient)
exception and the second attempt succeeds. -/
def otherErrorThenSuccess : Nat → AttemptOutcome
  | 0 => .otherError
  | _ + 1 => .response "ok" "https://sede.example/citar" 200

/-- A province select offering only Madrid and Cádiz. -/
def sampleProvinciaSelect : FormControl :=
  { tag := "select", name := some "provincia", typeAttr := none, value := none,
    options := [{ text := " Madrid ", value := some "28" },
                { text := " Cádiz ", value := some "11" }] }

/-- A hidden input with a prefilled token value. -/
def sampleHiddenInput : FormControl :=
  { tag := "input", name := some "token", typeAttr := some "hidden",
    value := some "abc123", options := [] }

/-- The form's submit button. -/
def sampleSubmitInput : FormControl :=
  { tag := "input", name := some "btnAceptar", typeAttr := some "submit",
    value := some "Aceptar", options := [] }

/-- An initial page whose form offers no option labelled `Almería`. -/
def sampleInitialPage : FetchedPage :=
  { form := some { action := some "/icpplus/citar"
                   controls := [sampleProvinciaSelect, sampleHiddenInput,
                                sampleSubmitInput] }
    text := "Seleccione la provincia"
    finalUrl := "https://icp.administracionelectronica.gob.es/icpplus/acOpcDirect"
    hasCalendarTable := false
    hasDateField := false }

/-- A rendered "no appointments" page that still carries dead calendar
markup, date radios and all booking elements. -/
def negativeBrowserPage : BrowserPage :=
  { content := "Aviso: En este momento NO HAY CITAS DISPONIBLES. <table class=calendario></table>"
    dateRadioValues := [some "2024-05-01"]
    hasCalendarTable := true
    hasCalendarClass := true
    hasDateSelect := true
    office := some "Oficina CNP"
    hasContinueButton := true
    contactFormFillable := true
    hasSubmitButton := true }

/-- A fetched "no appointments" page that still mentions a calendar and
carries date fields. -/
def negativeFetchedPage : FetchedPage :=
  { form := none
    text := "No quedan CITAS LIBRES en el calendario"
    finalUrl := "https://sede.example/icpplus/citar?p=4&locale=es"
    hasCalendarTable := true
    hasDateField := true }

/-- A final page offering three dated radios, no negative phrase, and no
continue button (so auto-booking cannot proceed). -/
def availableBrowserPage : BrowserPage :=
  { content := "Seleccione una fecha para su cita"
    dateRadioValues := [some "2024-05-01", some "2024-05-02", some "2024-05-03"]
    hasCalendarTable := false
    hasCalendarClass := false
    hasDateSelect := false
    office := some "Oficina de Almería"
    hasContinueButton := false
    contactFormFillable := false
    hasSubmitButton := false }

/-- A fully successful pipeline environment ending at
`availableBrowserPage`. -/
def availablePwEnv : PwEnv :=
  { gotoOk := true
    selectProvinceOk := true
    selectServiceOk := true
    proceedEntryOk := true
    fillUserDataOk := true
    finalPage := availableBrowserPage }

/-!
## Lemmas about the retry policy
-/

/-- From iteration `a ≥ 1` on, a run of server-error responses performs one
attempt per remaining iteration, sleeping `min (2 ^ k) 6` before each, and
ends with the failure signal. -/
theorem retryAux_server_error (outcomes : Nat → AttemptOutcome) (m : Nat) :
    ∀ fuel a, a + fuel = m → 1 ≤ a →
      (∀ i, a ≤ i → i < m → isServerErrorOutcome (outcomes i) = true) →
      retryAux outcomes m a fuel =
        (none, fuel, (List.range' a fuel).map (fun k => min (2 ^ k) 6)) := by
  intro fuel
  induction fuel with
  | zero =>
    intro a _ _ _
    simp [retryAux]
  | succ fuel ih =>
    intro a ha h1 hs
    have hlt : a < m := by omega
    have hsa := hs a le_rfl hlt
    cases ho : outcomes a with
    | response c u s =>
      rw [ho] at hsa
      have hs500 : 500 ≤ s := by simpa [isServerErrorOutcome] using hsa
      have ha0 : ¬ a = 0 := by omega
      by_cases hlast : a = m - 1
      · have hf0 : fuel = 0 := by omega
        subst hf0
        simp [retryAux, ho, hs500, retrySleeps, ha0, List.range'_succ]
      · have hrec := ih (a + 1) (by omega) (by omega)
          (fun i hi1 hi2 => hs i (by omega) hi2)
        simp [retryAux, ho, hs500, hlast, retrySleeps, ha0, hrec, List.range'_succ]
    | connectionError =>
      rw [ho] at hsa
      simp [isServerErrorOutcome] at hsa
    | timeoutError =>
      rw [ho] at hsa
      simp [isServerErrorOutcome] at hsa
    | otherError =>
      rw [ho] at hsa
      simp [isServerErrorOutcome] at hsa

/-- Whenever at least one loop iteration remains, at least one request
attempt is performed. -/
theorem retryAux_attempts_pos (outcomes : Nat → AttemptOutcome)
    (m a fuel : Nat) (h : 1 ≤ fuel) : 1 ≤ (retryAux outcomes m a fuel).2.1 := by
  obtain ⟨k, rfl⟩ : ∃ k, fuel = k + 1 := ⟨fuel - 1, by omega⟩
  cases ho : outcomes a with
  | response c u s =>
    simp only [retryAux, ho]
    split_ifs <;> simp
  | connectionError =>
    simp only [retryAux, ho]
    split_ifs <;> simp
  | timeoutError =>
    simp only [retryAux, ho]
    split_ifs <;> simp
  | otherError =>
    simp only [retryAux, ho]
    split_ifs <;> simp

/-- After a failure the source keeps looping on (a server error or any
raised exception) at an iteration that is not the last one, at least one
further attempt is performed. -/
theorem retryAux_retriable_attempts (outcomes : Nat → AttemptOutcome)
    (m a fuel : Nat) (hr : isRetriedFailure (outcomes a) = true)
    (hl : ¬ a = m - 1) (hf : 1 ≤ fuel) :
    2 ≤ (retryAux outcomes m a (fuel + 1)).2.1 := by
  have hpos := retryAux_attempts_pos outcomes m (a + 1) fuel hf
  cases ho : outcomes a with
  | response c u s =>
    rw [ho] at hr
    have hs500 : 500 ≤ s := by simpa [isRetriedFailure] using hr
    simp [retryAux, ho, hs500, hl]
    omega
  | connectionError =>
    simp [retryAux, ho, hl]
    omega
  | timeoutError =>
    simp [retryAux, ho, hl]
    omega
  | otherError =>
    simp [retryAux, ho, hl]
    omega

/-- The value returned by the retry loop is the failure signal or a response
whose status passed both error checks, hence is below 400. -/
theorem retryAux_result_status_lt_400 (outcomes : Nat → AttemptOutcome)
    (m : Nat) : ∀ fuel a, (retryAux outcomes m a fuel).1 = none ∨
      ∃ c u s, (retryAux outcomes m a fuel).1 = some (c, u, s) ∧ s < 400 := by
  intro fuel
  induction fuel with
  | zero =>
    intro a
    left
    simp [retryAux]
  | succ fuel ih =>
    intro a
    cases ho : outcomes a with
    | response c u s =>
      by_cases h5 : 500 ≤ s
      · by_cases hl : a = m - 1
        · left
          subst hl
          simp [retryAux, ho, h5]
        · simpa [retryAux, ho, h5, hl] using ih (a + 1)
      · by_cases h4 : 400 ≤ s
        · left
          simp [retryAux, ho, h5, h4]
        · right
          exact ⟨c, u, s, by simp [retryAux, ho, h5, h4], by omega⟩
    | connectionError =>
      by_cases hl : a = m - 1
      · left
        subst hl
        simp [retryAux, ho]
      · simpa [retryAux, ho, hl] using ih (a + 1)
    | timeoutError =>
      by_cases hl : a = m - 1
      · left
        subst hl
        simp [retryAux, ho]
      · simpa [retryAux, ho, hl] using ih (a + 1)
    | otherError =>
      by_cases hl : a = m - 1
      · left
        subst hl
        simp [retryAux, ho]
      · simpa [retryAux, ho, hl] using ih (a + 1)

/-!
## Claim theorems about the retry policy
-/

/-- C1: when every response has HTTP status `>= 500`,
`_make_request_with_retry` with `max_retries = m` performs exactly `m`
request attempts, sleeps nothing before the first attempt and
`min (2 ^ (n - 1)) 6` seconds before each later attempt `n` (so 2s and 4s
for attempts 2 and 3, capped at 6s afterwards), and returns `None`. -/
theorem retry_exhausts_on_server_errors (outcomes : Nat → AttemptOutcome)
    (m : Nat) (hs : ∀ i, i < m → isServerErrorOutcome (outcomes i) = true) :
    makeRequestWithRetry outcomes m = (none, m, expectedRetryDelays m) := by
  cases m with
  | zero => simp [makeRequestWithRetry, retryAux, expectedRetryDelays]
  | succ k =>
    have h0 := hs 0 (by omega)
    cases ho : outcomes 0 with
    | response c u s =>
      rw [ho] at h0
      have hs500 : 500 ≤ s := by simpa [isServerErrorOutcome] using h0
      by_cases hk : k = 0
      · subst hk
        simp [makeRequestWithRetry, retryAux, ho, hs500, retrySleeps,
          expectedRetryDelays]
      · have hrec := retryAux_server_error outcomes (k + 1) k 1 (by omega)
          (by omega) (fun i hi1 hi2 => hs i hi2)
        have hne : ¬ (0 = (k + 1) - 1) := by omega
        simp [makeRequestWithRetry, retryAux, ho, hs500, hne, retrySleeps, hrec,
          expectedRetryDelays]
        omega
    | connectionError =>
      rw [ho] at h0
      simp [isServerErrorOutcome] at h0
    | timeoutError =>
      rw [ho] at h0
      simp [isServerErrorOutcome] at h0
    | otherError =>
      rw [ho] at h0
      simp [isServerErrorOutcome] at h0



/-- Witness for C1: three 503 responses give exactly three attempts, sleeps
of 2s and 4s, and the failure signal. -/
theorem retry_exhausts_on_server_errors_witness :
    makeRequestWithRetry allServerErrorOutcomes 3 = (none, 3, [2, 4]) := by
  have h := retry_exhausts_on_server_errors allServerErrorOutcomes 3
    (fun i _ => rfl)
  exact h.trans (by decide)

/-- C4: a client-error response (status in `[400, 500)`) on the first
attempt makes `_make_request_with_retry` return `None` after exactly one
attempt, with no sleep performed and no further attempt consumed. -/
theorem retry_aborts_on_client_error (outcomes : Nat → AttemptOutcome)
    (m s : Nat) (c u : String) (hm : 1 ≤ m)
    (h0 : outcomes 0 = .response c u s) (h4 : 400 ≤ s) (h5 : s < 500) :
    makeRequestWithRetry outcomes m = (none, 1, []) := by
  obtain ⟨k, rfl⟩ : ∃ k, m = k + 1 := ⟨m - 1, by omega⟩
  have hn5 : ¬ 500 ≤ s := by omega
  simp [makeRequestWithRetry, retryAux, h0, hn5, h4, retrySleeps]



/-- Witness for C4: a 403 on the first attempt gives exactly one attempt,
no sleeps, and the failure signal, with retry budget to spare. -/
theorem retry_aborts_on_client_error_witness :
    makeRequestWithRetry clientErrorOutcomes 3 = (none, 1, []) :=
  retry_aborts_on_client_error clientErrorOutcomes 3 403 "forbidden"
    "https://sede.example/acOpcDirect" (by omega) rfl (by omega) (by omega)



/-- C5 counterexample: a failure that is not classified transient (the
generic `except Exception` branch) is nevertheless retried — with
`max_retries = 2` the loop performs a second attempt after it. -/
theorem retry_nontransient_retried_counterexample :
    isTransientOutcome (otherErrorThenSuccess 0) = false ∧
    (makeRequestWithRetry otherErrorThenSuccess 2).2.1 = 2 := by
  constructor
  · rfl
  · decide

/-- C5 as amended: `_make_request_with_retry` retries a failed attempt
after a connection failure, a timeout, a server-error status `>= 500`, or
any other raised exception; the only failure that is never retried is a
client-error response status in `[400, 500)`. -/
theorem retry_retries_all_raised_failures (outcomes : Nat → AttemptOutcome)
    (m : Nat) (hm : 2 ≤ m) :
    (isRetriedFailure (outcomes 0) = true →
      2 ≤ (makeRequestWithRetry outcomes m).2.1) ∧
    (∀ c u s, outcomes 0 = .response c u s → 400 ≤ s → s < 500 →
      (makeRequestWithRetry outcomes m).2.1 = 1) := by
  obtain ⟨k, rfl⟩ : ∃ k, m = k + 2 := ⟨m - 2, by omega⟩
  have hne : ¬ (0 = (k + 2) - 1) := by omega
  constructor
  · intro hr
    exact retryAux_retriable_attempts outcomes (k + 2) 0 (k + 1) hr hne
      (by omega)
  · intro c u s ho h4 h5
    have hn5 : ¬ 500 ≤ s := by omega
    simp [makeRequestWithRetry, retryAux, ho, hn5, h4, retrySleeps]

/-- Witness for the amended C5: the generic exception is retried (two
attempts despite a non-transient first failure), while a 404 client error
stops after one attempt. -/
theorem retry_retries_all_raised_failures_witness :
    2 ≤ (makeRequestWithRetry otherErrorThenSuccess 2).2.1 ∧
    (makeRequestWithRetry clientErrorOutcomes 2).2.1 = 1 := by
  have h1 := retry_retries_all_raised_failures otherErrorThenSuccess 2 (by omega)
  have h2 := retry_retries_all_raised_failures clientErrorOutcomes 2 (by omega)
  exact ⟨h1.1 rfl, h2.2 "forbidden" "https://sede.example/acOpcDirect" 403 rfl
    (by omega) (by omega)⟩

/-- C10: `_make_request_with_retry` returns either `None` or a triple whose
status is strictly below 400; failures of every kind are absorbed into the
`None` signal rather than surfaced to the caller. -/
theorem retry_result_none_or_success_status (outcomes : Nat → AttemptOutcome)
    (m : Nat) :
    (makeRequestWithRetry outcomes m).1 = none ∨
      ∃ c u s, (makeRequestWithRetry outcomes m).1 = some (c, u, s) ∧
        s < 400 :=
  retryAux_result_status_lt_400 outcomes m m 0

/-!
## Lemmas about the form extractor
-/

/-- A control whose name is not `n` leaves key `n` of the mapping unchanged. -/
theorem processControl_other_name (province : String)
    (fd : String → Option String) (c : FormControl) (n : String)
    (h : ¬ c.name = some n) : processControl province fd c n = fd n := by
  obtain ⟨tag, nm, ty, v, opts⟩ := c
  cases nm with
  | none => rfl
  | some n2 =>
    have hn2 : ¬ n = n2 := fun he => h (by simp [he])
    simp only [processControl]
    by_cases hsel : tag = "select" ∧ n2 = "provincia"
    · simp only [if_pos hsel]
      cases opts.find? (fun o => stripChars o.text == province.data) with
      | some o => simp [dictInsert, hn2]
      | none => rfl
    · simp only [if_neg hsel]
      by_cases hh : ty = some "hidden"
      · simp [hh, dictInsert, hn2]
      · by_cases hsub : ty = some "submit"
        · simp [hh, hsub]
        · simp [hh, hsub, dictInsert, hn2]

/-- A submit-typed input leaves the whole mapping unchanged. -/
theorem processControl_submit (province : String)
    (fd : String → Option String) (c : FormControl)
    (htag : c.tag = "input") (hty : c.typeAttr = some "submit") :
    processControl province fd c = fd := by
  obtain ⟨tag, nm, ty, v, opts⟩ := c
  simp only at htag hty
  subst htag
  subst hty
  cases nm with
  | none => rfl
  | some n2 => simp [processControl]

/-- A hidden input writes its name with its prefilled value (defaulting to
the empty string), whatever the mapping held before. -/
theorem processControl_hidden (province : String)
    (fd : String → Option String) (c : FormControl) (n : String)
    (htag : c.tag = "input") (hty : c.typeAttr = some "hidden")
    (hn : c.name = some n) :
    processControl province fd c n = some (c.value.getD "") := by
  obtain ⟨tag, nm, ty, v, opts⟩ := c
  simp only at htag hty hn
  subst htag
  subst hty
  subst hn
  simp [processControl, dictInsert]

/-- A `provincia` select none of whose options matches the requested
province (after stripping) leaves the whole mapping unchanged. -/
theorem processControl_provincia_nomatch (province : String)
    (fd : String → Option String) (c : FormControl)
    (hn : c.name = some "provincia") (htag : c.tag = "select")
    (ho : ∀ o ∈ c.options, ¬ stripChars o.text = province.data) :
    processControl province fd c = fd := by
  obtain ⟨tag, nm, ty, v, opts⟩ := c
  simp only at hn htag ho
  subst hn
  subst htag
  have hf : opts.find? (fun o => stripChars o.text == province.data) = none := by
    refine List.find?_eq_none.mpr ?_
    intro o hmem
    simpa using ho o hmem
  simp [processControl, hf]

/-- Folding over controls that all leave key `n` unchanged leaves key `n`
of the accumulated mapping unchanged. -/
theorem foldl_processControl_preserve (province n : String) :
    ∀ (cs : List FormControl) (fd : String → Option String),
      (∀ c ∈ cs, ∀ g : String → Option String,
        processControl province g c n = g n) →
      cs.foldl (processControl province) fd n = fd n := by
  intro cs
  induction cs with
  | nil =>
    intro fd _
    rfl
  | cons c cs ih =>
    intro fd h
    have h1 := h c (List.mem_cons_self c cs)
    have h2 : ∀ c2 ∈ cs, ∀ g : String → Option String,
        processControl province g c2 n = g n :=
      fun c2 hc2 => h c2 (List.mem_cons_of_mem _ hc2)
    rw [List.foldl_cons, ih _ h2, h1]

/-- When every control named `provincia` is a select with no matching
option, the built form data has no `provincia` entry. -/
theorem buildFormData_provincia_none (province : String)
    (controls : List FormControl)
    (hall : ∀ c ∈ controls, c.name = some "provincia" →
      c.tag = "select" ∧ ∀ o ∈ c.options, ¬ stripChars o.text = province.data) :
    buildFormData province controls "provincia" = none := by
  unfold buildFormData
  refine foldl_processControl_preserve province "provincia" controls _ ?_
  intro c hc g
  by_cases hn : c.name = some "provincia"
  · obtain ⟨ht, ho⟩ := hall c hc hn
    rw [processControl_provincia_nomatch province g c hn ht ho]
  · exact processControl_other_name province g c "provincia" hn

/-!
## Claim theorems about the form extractor and province selection
-/

/-- C6: when no option of the `provincia` select has stripped text equal to
the requested province, `check_province_appointments` returns `None` after
only the initial GET — the province-selection POST is never issued, so the
label-not-found failure consumes no retry budget and is not retried. -/
theorem province_label_not_found_fails_before_submit (env : ReqEnv)
    (province : String) (page : FetchedPage) (form : HtmlForm)
    (h1 : env.initialPage = some page) (h2 : page.form = some form)
    (hall : ∀ c ∈ form.controls, c.name = some "provincia" →
      c.tag = "select" ∧ ∀ o ∈ c.options, ¬ stripChars o.text = province.data) :
    checkProvinceAppointmentsReq env province = (none, 1) := by
  have hfd := buildFormData_provincia_none province form.controls hall
  simp [checkProvinceAppointmentsReq, h1, h2, hfd]



/-- Witness for C6: asking for `Almería` against a form offering only
Madrid and Cádiz fails after the single initial GET. -/
theorem province_label_not_found_fails_before_submit_witness :
    checkProvinceAppointmentsReq
      { initialPage := some sampleInitialPage, postPage := none } "Almería" =
      (none, 1) := by
  refine province_label_not_found_fails_before_submit _ "Almería"
    sampleInitialPage
    { action := some "/icpplus/citar"
      controls := [sampleProvinciaSelect, sampleHiddenInput, sampleSubmitInput] }
    rfl rfl ?_
  decide

/-- C9: form extraction resolves a root-relative action against the known
origin, always includes a named hidden input with its prefilled value (here
stated when no later control reuses the name), and always excludes
submit-typed inputs (here stated when every control carrying the name is a
submit input). -/
theorem form_extraction_contract (province a n : String)
    (pre post controls : List FormControl) (c : FormControl) :
    (a.data.head? = some '/' → resolveActionUrl (some a) = knownOrigin ++ a) ∧
    (c.tag = "input" → c.typeAttr = some "hidden" → c.name = some n →
      (∀ d ∈ post, ¬ d.name = some n) →
      buildFormData province (pre ++ c :: post) n = some (c.value.getD "")) ∧
    ((∀ d ∈ controls, d.name = some n →
        d.tag = "input" ∧ d.typeAttr = some "submit") →
      buildFormData province controls n = none) := by
  refine ⟨?_, ?_, ?_⟩
  · intro hsl
    simp [resolveActionUrl, hsl]
  · intro htag hty hn hpost
    unfold buildFormData
    rw [List.foldl_append, List.foldl_cons]
    rw [foldl_processControl_preserve province n post _
      (fun d hd g => processControl_other_name province g d n (hpost d hd))]
    exact processControl_hidden province _ c n htag hty hn
  · intro hall
    unfold buildFormData
    refine foldl_processControl_preserve province n controls _ ?_
    intro d hd g
    by_cases hn2 : d.name = some n
    · obtain ⟨ht, hsub⟩ := hall d hd hn2
      rw [processControl_submit province g d ht hsub]
    · exact processControl_other_name province g d n hn2

/-- Witness for C9 on a concrete form: the action is absolutised, the
hidden token is included with its value, the submit button is excluded. -/
theorem form_extraction_contract_witness :
    resolveActionUrl (some "/icpplus/citar") =
      "https://icp.administracionelectronica.gob.es/icpplus/citar" ∧
    buildFormData "Cádiz"
      [sampleProvinciaSelect, sampleHiddenInput, sampleSubmitInput] "token" =
      some "abc123" ∧
    buildFormData "Cádiz"
      [sampleProvinciaSelect, sampleHiddenInput, sampleSubmitInput]
      "btnAceptar" = none := by
  have h1 := form_extraction_contract "Cádiz" "/icpplus/citar" "token"
    [sampleProvinciaSelect] [sampleSubmitInput]
    [sampleProvinciaSelect, sampleHiddenInput, sampleSubmitInput]
    sampleHiddenInput
  have h2 := form_extraction_contract "Cádiz" "/icpplus/citar" "btnAceptar"
    [] [] [sampleProvinciaSelect, sampleHiddenInput, sampleSubmitInput]
    sampleSubmitInput
  refine ⟨h1.1 (by decide), ?_, h2.2.2 (by decide)⟩
  have := h1.2.1 rfl rfl rfl (by decide)
  exact this

/-!
## Claim theorems about the availability classifier
-/

/-- C2: a final page whose text contains any fixed "no appointments" phrase
(case-insensitively) is classified not available with no details, in both
transports, whatever calendar markup or date inputs the page also carries —
the negative tier is evaluated before the calendar and positive-phrase
tiers. -/
theorem negative_phrase_overrides_everything (pageB : BrowserPage)
    (pageR : FetchedPage) (province : String) :
    ((∃ ind ∈ noAppointmentIndicatorsPw,
        containsSeq (lowerChars ind) (lowerChars pageB.content) = true) →
      checkAppointmentAvailability pageB = (false, none)) ∧
    ((∃ ind ∈ noAppointmentIndicatorsReq,
        containsSeq ind.data (lowerChars pageR.text) = true) →
      classifyServicePage province pageR = none) := by
  constructor
  · rintro ⟨ind, hmem, hsub⟩
    have hneg : pageHasNoAppointmentPhrase pageB = true := by
      unfold pageHasNoAppointmentPhrase
      exact List.any_eq_true.mpr ⟨ind, hmem, hsub⟩
    simp [checkAppointmentAvailability, hneg]
  · rintro ⟨ind, hmem, hsub⟩
    have hneg : noAppointmentIndicatorsReq.any
        (fun i => containsSeq i.data (lowerChars pageR.text)) = true :=
      List.any_eq_true.mpr ⟨ind, hmem, hsub⟩
    simp [classifyServicePage, hneg]



/-- Witness for C2: both classifiers report not available on negative pages
despite the calendar markup present. -/
theorem negative_phrase_overrides_everything_witness :
    checkAppointmentAvailability negativeBrowserPage = (false, none) ∧
    classifyServicePage "Almería" negativeFetchedPage = none := by
  have h := negative_phrase_overrides_everything negativeBrowserPage
    negativeFetchedPage "Almería"
  exact ⟨h.1 ⟨"En este momento no hay citas disponibles", by decide, by decide⟩,
    h.2 ⟨"no quedan citas libres", by decide, by decide⟩⟩

/-!
## Claim theorems about the per-province pipeline
-/

/-- C3: a province check either returns one complete result record after
running all six steps, or returns `None` having executed only a prefix of
the step sequence (no later step runs after a failure and no partial result
is surfaced); in the HTTP transport a returned record likewise requires
both network steps to have succeeded. -/
theorem check_is_all_or_nothing (env : PwEnv) (envR : ReqEnv)
    (province provinceR : String) :
    ((∃ r, checkProvinceAppointmentsPw env province = (some r, allPipelineSteps) ∧
        env.gotoOk = true ∧ env.selectProvinceOk = true ∧
        env.selectServiceOk = true ∧ env.proceedEntryOk = true ∧
        env.fillUserDataOk = true) ∨
      ((checkProvinceAppointmentsPw env province).1 = none ∧
        ∃ k, k ≤ 5 ∧
          (checkProvinceAppointmentsPw env province).2 = allPipelineSteps.take k)) ∧
    ((checkProvinceAppointmentsReq envR provinceR).1 = none ∨
      ∃ info, checkProvinceAppointmentsReq envR provinceR = (some info, 2) ∧
        ¬ envR.initialPage = none ∧ ¬ envR.postPage = none) := by
  constructor
  · cases hg : env.gotoOk with
    | false =>
      right
      exact ⟨by simp [checkProvinceAppointmentsPw, hg], 0, by omega,
        by simp [checkProvinceAppointmentsPw, hg]⟩
    | true =>
      cases hp : env.selectProvinceOk with
      | false =>
        right
        exact ⟨by simp [checkProvinceAppointmentsPw, hg, hp], 1, by omega,
          by simp [checkProvinceAppointmentsPw, hg, hp, allPipelineSteps]⟩
      | true =>
        cases hs : env.selectServiceOk with
        | false =>
          right
          exact ⟨by simp [checkProvinceAppointmentsPw, hg, hp, hs], 2, by omega,
            by simp [checkProvinceAppointmentsPw, hg, hp, hs, allPipelineSteps]⟩
        | true =>
          cases he : env.proceedEntryOk with
          | false =>
            right
            exact ⟨by simp [checkProvinceAppointmentsPw, hg, hp, hs, he], 3,
              by omega,
              by simp [checkProvinceAppointmentsPw, hg, hp, hs, he,
                allPipelineSteps]⟩
          | true =>
            cases hu : env.fillUserDataOk with
            | false =>
              right
              exact ⟨by simp [checkProvinceAppointmentsPw, hg, hp, hs, he, hu],
                4, by omega,
                by simp [checkProvinceAppointmentsPw, hg, hp, hs, he, hu,
                  allPipelineSteps]⟩
            | true =>
              rcases hca : checkAppointmentAvailability env.finalPage with
                ⟨avail, details⟩
              cases avail with
              | true =>
                cases details with
                | some d =>
                  left
                  exact ⟨{ province := province, dates := d.dates,
                           office := d.office,
                           bookingAttempted :=
                             autoSelectAppointment env.finalPage },
                    by simp [checkProvinceAppointmentsPw, hg, hp, hs, he, hu,
                      hca], rfl, rfl, rfl, rfl, rfl⟩
                | none =>
                  right
                  exact ⟨by simp [checkProvinceAppointmentsPw, hg, hp, hs, he,
                      hu, hca], 5, by omega,
                    by simp [checkProvinceAppointmentsPw, hg, hp, hs, he, hu,
                      hca, allPipelineSteps]⟩
              | false =>
                right
                exact ⟨by simp [checkProvinceAppointmentsPw, hg, hp, hs, he, hu,
                    hca], 5, by omega,
                  by simp [checkProvinceAppointmentsPw, hg, hp, hs, he, hu, hca,
                    allPipelineSteps]⟩
  · cases hi : envR.initialPage with
    | none =>
      left
      simp [checkProvinceAppointmentsReq, hi]
    | some page =>
      cases hf : page.form with
      | none =>
        left
        simp [checkProvinceAppointmentsReq, hi, hf]
      | some form =>
        by_cases hfd : buildFormData provinceR form.controls "provincia" = none
        · left
          simp [checkProvinceAppointmentsReq, hi, hf, hfd]
        · cases hpp : envR.postPage with
          | none =>
            left
            simp [checkProvinceAppointmentsReq, hi, hf, hfd, hpp]
          | some page2 =>
            cases hurl : containsSeq "citar?p=4&locale=es".data
                page2.finalUrl.data with
            | false =>
              left
              simp [checkProvinceAppointmentsReq, hi, hf, hfd, hpp, hurl]
            | true =>
              cases hcl : classifyServicePage provinceR page2 with
              | none =>
                left
                simp [checkProvinceAppointmentsReq, hi, hf, hfd, hpp, hurl, hcl]
              | some info =>
                right
                exact ⟨info,
                  by simp [checkProvinceAppointmentsReq, hi, hf, hfd, hpp, hurl,
                    hcl],
                  by simp [hi], by simp [hpp]⟩

/-- Harvesting date values from radios that all carry non-empty values
returns exactly those values in order. -/
theorem filterMap_nonempty_values (vs : List String)
    (h : ∀ v ∈ vs, ¬ v = "") :
    (vs.map some).filterMap (fun v? => match v? with
      | some v => if v = "" then none else some v
      | none => none) = vs := by
  induction vs with
  | nil => rfl
  | cons v vs ih =>
    have hv := h v (List.mem_cons_self v vs)
    simp only [List.map_cons, List.filterMap_cons, if_neg hv]
    rw [ih (fun w hw => h w (List.mem_cons_of_mem _ hw))]

/-- A missing date radio, continue button, fillable contact form or submit
button makes the auto-booking report `false`. -/
theorem autoSelect_false_of_missing (page : BrowserPage)
    (h : page.hasContinueButton = false ∨ page.contactFormFillable = false ∨
      page.hasSubmitButton = false) : autoSelectAppointment page = false := by
  unfold autoSelectAppointment
  rcases h with h | h | h <;> simp [h]

/-- C7: on a final page with non-empty-valued date radios and no negative
phrase, the pipeline returns a result whose dates are those radios' values
in page order, records the auto-booking outcome on the result, and a
booking made impossible by a missing continue button, contact form or
submit button only sets `booking_attempted = false` without invalidating
the availability result. -/
theorem available_dates_and_booking_recorded (env : PwEnv) (province : String)
    (vs : List String)
    (hg : env.gotoOk = true) (hp : env.selectProvinceOk = true)
    (hs : env.selectServiceOk = true) (he : env.proceedEntryOk = true)
    (hu : env.fillUserDataOk = true)
    (hneg : pageHasNoAppointmentPhrase env.finalPage = false)
    (hv : env.finalPage.dateRadioValues = vs.map some)
    (hvne : ∀ v ∈ vs, ¬ v = "") (hvs : ¬ vs = []) :
    ∃ r, checkProvinceAppointmentsPw env province = (some r, allPipelineSteps) ∧
      r.dates = vs ∧
      r.bookingAttempted = autoSelectAppointment env.finalPage ∧
      ((env.finalPage.hasContinueButton = false ∨
        env.finalPage.contactFormFillable = false ∨
        env.finalPage.hasSubmitButton = false) →
        r.bookingAttempted = false) := by
  have hnonempty : (env.finalPage.dateRadioValues.isEmpty : Bool) = false := by
    rw [hv]
    cases vs with
    | nil => exact absurd rfl hvs
    | cons v vs => rfl
  have hcal : pageHasCalendarElement env.finalPage = true := by
    simp [pageHasCalendarElement, hnonempty]
  have hca : checkAppointmentAvailability env.finalPage =
      (true, some (extractAppointmentDetails env.finalPage)) := by
    simp [checkAppointmentAvailability, hneg, hcal]
  have hdates : (extractAppointmentDetails env.finalPage).dates = vs := by
    unfold extractAppointmentDetails
    rw [hv]
    exact filterMap_nonempty_values vs hvne
  refine ⟨{ province := province,
            dates := (extractAppointmentDetails env.finalPage).dates,
            office := (extractAppointmentDetails env.finalPage).office,
            bookingAttempted := autoSelectAppointment env.finalPage },
    by simp [checkProvinceAppointmentsPw, hg, hp, hs, he, hu, hca],
    hdates, rfl, ?_⟩
  intro hmiss
  exact autoSelect_false_of_missing env.finalPage hmiss



/-- Witness for C7: the three dates are returned in page order and the
impossible booking is recorded as not attempted on a still-valid result. -/
theorem available_dates_and_booking_recorded_witness :
    ∃ r, checkProvinceAppointmentsPw availablePwEnv "Almería" =
        (some r, allPipelineSteps) ∧
      r.dates = ["2024-05-01", "2024-05-02", "2024-05-03"] ∧
      r.bookingAttempted = false := by
  obtain ⟨r, h1, h2, h3, h4⟩ := available_dates_and_booking_recorded
    availablePwEnv "Almería" ["2024-05-01", "2024-05-02", "2024-05-03"]
    rfl rfl rfl rfl rfl (by decide) rfl (by decide) (by decide)
  exact ⟨r, h1, h2, h4 (Or.inl rfl)⟩

/-!
## Claim theorem about the check cycle
-/

/-- C8: a check cycle records exactly one outcome event per configured
province, in order, whatever each province check does — including raising —
and performs the inter-province pause after every province; the cycle never
stops early or crashes on a failing province. -/
theorem cycle_survives_province_failures (outcome : String → ProvinceOutcome)
    (provinces : List String) :
    (runSingleCheck outcome provinces).1.filterMap cycleEventProvince =
      provinces ∧
    (runSingleCheck outcome provinces).1.countP
      (fun e => decide (e = CycleEvent.pause)) = provinces.length ∧
    (runSingleCheck outcome provinces).1.length = 2 * provinces.length := by
  induction provinces with
  | nil => simp [runSingleCheck]
  | cons p rest ih =>
    obtain ⟨ih1, ih2, ih3⟩ := ih
    cases ho : outcome p <;>
      simp [runSingleCheck, ho, cycleEventProvince, ih1, ih2, ih3,
        List.countP_cons] <;>
      omega
